import Mathlib

/-!
Shallow embedding of the spatial-query core of the dviglo engine
(octree queries, terrain-patch ray processing, Vector3 math).

Float scalars of the C++ source are embedded as exact rationals; the
floating sqrt and the epsilon comparison helper of math_defs.h (a file
absent from the sources at hand) are passed in as explicit function
parameters so every theorem holds for each admissible implementation.
-/

namespace Dviglo

/-- Three-dimensional vector, embedding of `Vector3` (vector3.h) with
rational components standing for the floats. -/
structure Vec3 where
  x : ℚ
  y : ℚ
  z : ℚ
  deriving DecidableEq, Repr

namespace Vec3

/-- Embedding of `Vector3::operator+`. -/
def add (a b : Vec3) : Vec3 := ⟨a.x + b.x, a.y + b.y, a.z + b.z⟩

/-- Embedding of unary `Vector3::operator-` (negation). -/
def neg (a : Vec3) : Vec3 := ⟨-a.x, -a.y, -a.z⟩

/-- Embedding of `Vector3::operator*(float)` (scalar multiply). -/
def smul (a : Vec3) (k : ℚ) : Vec3 := ⟨a.x * k, a.y * k, a.z * k⟩

/-- Embedding of `Vector3::LengthSquared`: `x*x + y*y + z*z`. -/
def LengthSquared (a : Vec3) : ℚ := a.x * a.x + a.y * a.y + a.z * a.z

/-- Embedding of `Vector3::Normalize` (vector3.h lines 311-322).
`equalsOne s` stands for `dviglo::Equals(lenSquared, 1.0f)` and `sqrtf`
for the C library square root, both supplied as parameters. The body
scales by `1 / sqrtf lenSquared` exactly when the squared length does
not compare equal to one and is positive, else leaves the vector as is. -/
def Normalize (equalsOne : ℚ → Bool) (sqrtf : ℚ → ℚ) (v : Vec3) : Vec3 :=
  let lenSquared := v.LengthSquared
  if ¬ equalsOne lenSquared ∧ lenSquared > 0 then
    let invLen := 1 / sqrtf lenSquared
    ⟨v.x * invLen, v.y * invLen, v.z * invLen⟩
  else
    v

/-- Embedding of `Vector3::normalized` (vector3.h lines 402-413): same
branch structure as `Normalize` but returning the scaled copy, with the
original returned unchanged in the else branch. -/
def normalized (equalsOne : ℚ → Bool) (sqrtf : ℚ → ℚ) (v : Vec3) : Vec3 :=
  let lenSquared := v.LengthSquared
  if ¬ equalsOne lenSquared ∧ lenSquared > 0 then
    let invLen := 1 / sqrtf lenSquared
    v.smul invLen
  else
    v

end Vec3

/-- Graphics raycast detail level, embedding of `RayQueryLevel`
(octree_query.h): RAY_AABB, RAY_OBB, RAY_TRIANGLE, RAY_TRIANGLE_UV. -/
inductive RayQueryLevel where
  | RAY_AABB
  | RAY_OBB
  | RAY_TRIANGLE
  | RAY_TRIANGLE_UV
  deriving DecidableEq, Repr

/-- Embedding of the `NINDEX` sentinel index (-1) stored in
`subObject_` by TerrainPatch. -/
def NINDEX : ℤ := -1

/-- Embedding of `Ray` (origin and direction); the geometric hit tests
of ray.h are not among the sources at hand and enter as parameters. -/
structure Ray where
  origin : Vec3
  direction : Vec3
  deriving DecidableEq, Repr

/-- Raycast result record, embedding of `RayQueryResult`
(octree_query.h lines 167-202). Drawable and node pointers are embedded
as numeric identifiers; the textureUV field is untouched by the code
paths modelled here and is omitted. -/
structure RayQueryResult where
  position : Vec3
  normal : Vec3
  distance : ℚ
  drawable : ℕ
  node : ℕ
  subObject : ℤ
  deriving DecidableEq, Repr

/-- Embedding of `RayOctreeQuery` (octree_query.h lines 205-237): the
ray, both filter masks, the maximum distance and the detail level, all
set by the constructor and never mutated afterwards. The result vector
is threaded explicitly through the processing functions. -/
structure RayOctreeQuery where
  ray : Ray
  drawableTypes : ℕ
  viewMask : ℕ
  maxDistance : ℚ
  level : RayQueryLevel
  deriving DecidableEq, Repr

/-- Modelled from the spec: `Drawable::ProcessRayQuery` (drawable.cpp is
missing from the sources at hand). Per the spec, the default occupant
ray test at the bounding-box level produces a hit record (position,
normal, distance) appended to the result vector when the ray-vs-box hit
distance lies within the maximum distance; the comparison is strict,
matching the in-source TerrainPatch branches. `worldBoxDistance` stands
for `query.ray_.HitDistance(GetWorldBoundingBox())`. -/
def Drawable.ProcessRayQuery (query : RayOctreeQuery) (worldBoxDistance : ℚ)
    (drawable node : ℕ) (results : List RayQueryResult) : List RayQueryResult :=
  if worldBoxDistance < query.maxDistance then
    results ++ [⟨query.ray.origin.add (query.ray.direction.smul worldBoxDistance),
                 Vec3.neg query.ray.direction, worldBoxDistance, drawable, node, NINDEX⟩]
  else
    results

/-- Shared body of the `case RAY_OBB: case RAY_TRIANGLE:` block of
`TerrainPatch::ProcessRayQuery` (terrain_patch.cpp lines 64-92),
factored out exactly as the two labels share one block in the source.
The two locals mirror the mutable `distance` and `normal` of the C++
block: `distance` starts as `localRay.HitDistance(boundingBox_)` and is
replaced by the per-triangle distance only when the level is
RAY_TRIANGLE and the coarse distance is strictly below the maximum;
`normal` starts as the negated ray direction and is replaced by the
transformed geometry normal under the same guard. A record is appended
exactly when the final distance is strictly below the maximum. -/
def TerrainPatch.obbTriangleCase (query : RayOctreeQuery)
    (localBoxDistance geometryDistance : ℚ) (geometryWorldNormal : Vec3)
    (drawable node : ℕ) (results : List RayQueryResult) : List RayQueryResult :=
  let distance :=
    if query.level = .RAY_TRIANGLE ∧ localBoxDistance < query.maxDistance then
      geometryDistance
    else
      localBoxDistance
  let normal :=
    if query.level = .RAY_TRIANGLE ∧ localBoxDistance < query.maxDistance then
      geometryWorldNormal
    else
      Vec3.neg query.ray.direction
  if distance < query.maxDistance then
    results ++ [⟨query.ray.origin.add (query.ray.direction.smul distance),
                 normal, distance, drawable, node, NINDEX⟩]
  else
    results

/-- Embedding of `TerrainPatch::ProcessRayQuery` (terrain_patch.cpp
lines 55-98). The values computed by collaborators outside the sources
at hand enter as parameters: `localBoxDistance` is
`localRay.HitDistance(boundingBox_)` on the inverse-transformed ray,
`geometryDistance` is `geometry_->GetHitDistance(localRay, &n)`,
`geometryWorldNormal` is `(worldTransform * Vector4(n, 0)).normalized()`,
and `worldBoxDistance` feeds the RAY_AABB delegate. The switch
dispatches on the query's detail level; the RAY_TRIANGLE_UV arm only
logs a warning and leaves the results unchanged. -/
def TerrainPatch.ProcessRayQuery (query : RayOctreeQuery)
    (localBoxDistance geometryDistance : ℚ) (geometryWorldNormal : Vec3)
    (worldBoxDistance : ℚ) (drawable node : ℕ)
    (results : List RayQueryResult) : List RayQueryResult :=
  match query.level with
  | .RAY_AABB => Drawable.ProcessRayQuery query worldBoxDistance drawable node results
  | .RAY_OBB | .RAY_TRIANGLE =>
      TerrainPatch.obbTriangleCase query localBoxDistance geometryDistance
        geometryWorldNormal drawable node results
  | .RAY_TRIANGLE_UV => results

/-- Intersection classification used by all octant tests (the
`Intersection` enum referenced by octree_query.h). -/
inductive Intersection where
  | OUTSIDE
  | INTERSECTS
  | INSIDE
  deriving DecidableEq, Repr

/-- Axis-aligned bounding box: min and max corners (spec section 3). -/
structure BBox where
  min : Vec3
  max : Vec3
  deriving DecidableEq, Repr

/-- A box is defined when min ≤ max componentwise; otherwise it is the
undefined/empty sentinel (spec section 3). -/
def BBox.IsDefined (b : BBox) : Prop :=
  b.min.x ≤ b.max.x ∧ b.min.y ≤ b.max.y ∧ b.min.z ≤ b.max.z

instance (b : BBox) : Decidable b.IsDefined := by
  unfold BBox.IsDefined
  infer_instance

/-- Containment of box `b` inside box `c`, componentwise. -/
def BBox.insideOf (b c : BBox) : Prop :=
  c.min.x ≤ b.min.x ∧ c.min.y ≤ b.min.y ∧ c.min.z ≤ b.min.z ∧
  b.max.x ≤ c.max.x ∧ b.max.y ≤ c.max.y ∧ b.max.z ≤ c.max.z

instance (b c : BBox) : Decidable (b.insideOf c) := by
  unfold BBox.insideOf
  infer_instance

/-- Modelled from the spec: `BoxContainsPoint` (bounding_box.h is missing
from the sources at hand); a point on the boundary is contained. -/
def BBox.containsPoint (b : BBox) (p : Vec3) : Prop :=
  b.min.x ≤ p.x ∧ p.x ≤ b.max.x ∧
  b.min.y ≤ p.y ∧ p.y ≤ b.max.y ∧
  b.min.z ≤ p.z ∧ p.z ≤ b.max.z

instance (b : BBox) (p : Vec3) : Decidable (b.containsPoint p) := by
  unfold BBox.containsPoint
  infer_instance

/-- Modelled from the spec: interval-overlap test of two boxes
(bounding_box.h is missing); per the spec tie-break, touching boxes
intersect. `a` is the query region. -/
def BBox.intersects (a b : BBox) : Prop :=
  ¬ (b.max.x < a.min.x ∨ b.min.x > a.max.x ∨
     b.max.y < a.min.y ∨ b.min.y > a.max.y ∨
     b.max.z < a.min.z ∨ b.min.z > a.max.z)

instance (a b : BBox) : Decidable (a.intersects b) := by
  unfold BBox.intersects
  infer_instance

/-- Modelled from the spec: `BoxVsBox(a, b) -> {Outside, Intersects,
Inside}` comparing each axis interval, Inside meaning `a` fully
contains `b` (spec section 4.1; the implementation file is missing). -/
def BBox.classify (a b : BBox) : Intersection :=
  if b.max.x < a.min.x ∨ b.min.x > a.max.x ∨
     b.max.y < a.min.y ∨ b.min.y > a.max.y ∨
     b.max.z < a.min.z ∨ b.min.z > a.max.z then
    .OUTSIDE
  else if b.insideOf a then
    .INSIDE
  else
    .INTERSECTS

/-- Sphere: center and radius (sphere.h is missing from the sources at
hand; modelled from the spec's data model). -/
structure Sphere where
  center : Vec3
  radius : ℚ
  deriving DecidableEq, Repr

/-- Distance from a point to a 1-dimensional interval along one axis
(zero inside the interval). -/
def axisGap (lo hi p : ℚ) : ℚ :=
  if p < lo then lo - p else if p > hi then p - hi else 0

/-- Squared distance from a point to the nearest point of a box. -/
def BBox.distSqToPoint (b : BBox) (p : Vec3) : ℚ :=
  axisGap b.min.x b.max.x p.x * axisGap b.min.x b.max.x p.x +
  axisGap b.min.y b.max.y p.y * axisGap b.min.y b.max.y p.y +
  axisGap b.min.z b.max.z p.z * axisGap b.min.z b.max.z p.z

/-- Farthest-corner distance bound along one axis. -/
def axisFar (lo hi p : ℚ) : ℚ := max (p - lo) (hi - p)

/-- Squared distance from a point to the farthest corner of a box. -/
def BBox.farDistSqToPoint (b : BBox) (p : Vec3) : ℚ :=
  axisFar b.min.x b.max.x p.x * axisFar b.min.x b.max.x p.x +
  axisFar b.min.y b.max.y p.y * axisFar b.min.y b.max.y p.y +
  axisFar b.min.z b.max.z p.z * axisFar b.min.z b.max.z p.z

/-- Modelled from the spec: sphere-vs-box intersection (the occupant
level sphere test); the sphere meets the box when the nearest point of
the box is within the radius. -/
def Sphere.intersectsBox (s : Sphere) (b : BBox) : Prop :=
  b.distSqToPoint s.center ≤ s.radius * s.radius

instance (s : Sphere) (b : BBox) : Decidable (s.intersectsBox b) := by
  unfold Sphere.intersectsBox
  infer_instance

/-- Modelled from the spec: sphere-vs-box classification for the octant
test: Outside when even the nearest box point is strictly beyond the
radius, Inside when even the farthest corner is within it. -/
def Sphere.classifyBox (s : Sphere) (b : BBox) : Intersection :=
  if b.distSqToPoint s.center > s.radius * s.radius then
    .OUTSIDE
  else if b.farDistSqToPoint s.center ≤ s.radius * s.radius then
    .INSIDE
  else
    .INTERSECTS

/-- Plane with (not necessarily unit) normal and offset; signed
distance of point p is `normal ⬝ p + d` (spec section 3, Frustum). -/
structure Plane where
  normal : Vec3
  d : ℚ
  deriving DecidableEq, Repr

/-- Signed distance of the box corner maximizing it, via the spec's
corner-selection rule: pick the max corner on axes with nonnegative
normal component, the min corner otherwise. -/
def Plane.maxCornerDist (pl : Plane) (b : BBox) : ℚ :=
  (if 0 ≤ pl.normal.x then pl.normal.x * b.max.x else pl.normal.x * b.min.x) +
  (if 0 ≤ pl.normal.y then pl.normal.y * b.max.y else pl.normal.y * b.min.y) +
  (if 0 ≤ pl.normal.z then pl.normal.z * b.max.z else pl.normal.z * b.min.z) +
  pl.d

/-- Signed distance of the box corner minimizing it. -/
def Plane.minCornerDist (pl : Plane) (b : BBox) : ℚ :=
  (if 0 ≤ pl.normal.x then pl.normal.x * b.min.x else pl.normal.x * b.max.x) +
  (if 0 ≤ pl.normal.y then pl.normal.y * b.min.y else pl.normal.y * b.max.y) +
  (if 0 ≤ pl.normal.z then pl.normal.z * b.min.z else pl.normal.z * b.max.z) +
  pl.d

/-- Frustum as its list of clip planes (6 for the engine's frusta; the
count is immaterial to the classification rule). -/
structure Frustum where
  planes : List Plane
  deriving DecidableEq, Repr

/-- Modelled from the spec: `FrustumVsBox`: Outside when some plane has
the most-inside corner strictly behind it, Inside when every plane has
the least-inside corner strictly in front, else Intersects; a box
touching a plane (distance 0) is Intersects, not Outside. -/
def Frustum.classifyBox (f : Frustum) (b : BBox) : Intersection :=
  if ∃ pl ∈ f.planes, pl.maxCornerDist b < 0 then
    .OUTSIDE
  else if ∀ pl ∈ f.planes, pl.minCornerDist b > 0 then
    .INSIDE
  else
    .INTERSECTS

/-- Modelled from the spec: the occupant-level frustum test succeeds
when the box is not fully behind any plane. -/
def Frustum.intersectsBox (f : Frustum) (b : BBox) : Prop :=
  ∀ pl ∈ f.planes, 0 ≤ pl.maxCornerDist b

instance (f : Frustum) (b : BBox) : Decidable (f.intersectsBox b) := by
  unfold Frustum.intersectsBox
  infer_instance

/-- Occupant record for the octree model: identity, the two filter
bitmasks and the world bounding box (the `Drawable` fields the queries
read; drawable.h is missing from the sources at hand, the fields are
those named by the spec's occupant contract). -/
structure Drawable where
  id : ℕ
  drawableType : ℕ
  viewMask : ℕ
  worldBoundingBox : BBox
  deriving DecidableEq, Repr

/-- Mask eligibility shared by every query type (spec: an occupant is
eligible only if both bitmask intersections are nonzero). -/
def maskOk (types view : ℕ) (d : Drawable) : Bool :=
  (Nat.land d.drawableType types != 0) && (Nat.land d.viewMask view != 0)

/-- The geometric parameter of a query: point, sphere, box, frustum or
the all-content query (tagged variant per the spec's design notes). -/
inductive OctreeQueryKind where
  | point (p : Vec3)
  | sphere (s : Sphere)
  | box (b : BBox)
  | frustum (f : Frustum)
  | allContent
  deriving DecidableEq, Repr

/-- Modelled from the spec: the octant-level test of each query variant
(octree_query.cpp is missing): point containment classification,
sphere/box/frustum classification, and always-Inside for all-content. -/
def OctreeQueryKind.testOctant : OctreeQueryKind → BBox → Intersection
  | .point p, bx => if bx.containsPoint p then .INSIDE else .OUTSIDE
  | .sphere s, bx => s.classifyBox bx
  | .box qb, bx => qb.classify bx
  | .frustum f, bx => f.classifyBox bx
  | .allContent, _ => .INSIDE

/-- Modelled from the spec: the occupant-level geometric test of each
query variant applied to the occupant's world bounding box. -/
def OctreeQueryKind.geomTest : OctreeQueryKind → BBox → Prop
  | .point p, bx => bx.containsPoint p
  | .sphere s, bx => s.intersectsBox bx
  | .box qb, bx => qb.intersects bx
  | .frustum f, bx => f.intersectsBox bx
  | .allContent, _ => True

instance (k : OctreeQueryKind) (b : BBox) : Decidable (k.geomTest b) := by
  unfold OctreeQueryKind.geomTest
  rcases k with p | s | qb | f | _ <;> infer_instance

/-- Query object: geometric kind plus the two masks fixed at
construction (octree_query.h constructor parameters). -/
structure OctreeQuery where
  kind : OctreeQueryKind
  drawableTypes : ℕ
  viewMask : ℕ

/-- Modelled from the spec: the leaf-level `test_drawables` filter:
mask eligibility and the occupant-level geometric test (the spec's
`still apply leaf-level occupant test` rule: the geometric occupant
test is applied also below an Inside octant). -/
def OctreeQuery.testDrawables (q : OctreeQuery) (ds : List Drawable) : List Drawable :=
  ds.filter fun d =>
    maskOk q.drawableTypes q.viewMask d && decide (q.kind.geomTest d.worldBoundingBox)

/-- Octant: its cell box, directly held occupants and child octants
(spec section 3; octree.h is missing from the sources at hand). -/
inductive Octant where
  | node (box : BBox) (drawables : List Drawable) (children : List Octant)

/-- Cell box of an octant. -/
def Octant.boxOf : Octant → BBox
  | .node box _ _ => box

/-- All occupants stored in an octant's subtree, own list first then
children in order. -/
def Octant.flatten : Octant → List Drawable
  | .node _ ds cs => ds ++ (cs.attach.map fun c => Octant.flatten c.1).flatten
termination_by t => sizeOf t
decreasing_by
  simp_wf
  have h := List.sizeOf_lt_of_mem c.2
  omega

/-- Modelled from the spec: the recursive query of section 4.2: test
this octant's box against the query's octant test unless already inside
(Outside prunes; Inside passes the inside flag to descendants, skipping
their box tests); in every visited octant the leaf-level occupant test
runs over the direct occupant list. -/
def Octant.getDrawables (q : OctreeQuery) : Bool → Octant → List Drawable
  | true, .node _ ds cs =>
      q.testDrawables ds ++ (cs.attach.map fun c => Octant.getDrawables q true c.1).flatten
  | false, .node box ds cs =>
      match q.kind.testOctant box with
      | .OUTSIDE => []
      | .INSIDE =>
          q.testDrawables ds ++ (cs.attach.map fun c => Octant.getDrawables q true c.1).flatten
      | .INTERSECTS =>
          q.testDrawables ds ++ (cs.attach.map fun c => Octant.getDrawables q false c.1).flatten
termination_by _ t => sizeOf t
decreasing_by
  all_goals simp_wf
  all_goals have h := List.sizeOf_lt_of_mem c.2
  all_goals omega

/-- Structural invariant of the index (spec: every occupant in or below
an Octant has a world bounding box the Octant is responsible for):
every directly held occupant has a defined box contained in the cell
box, and every child cell is contained in its parent's with the same
invariant below. -/
def Octant.wf : Octant → Prop
  | .node box ds cs =>
      (∀ d ∈ ds, d.worldBoundingBox.IsDefined ∧ d.worldBoundingBox.insideOf box) ∧
      (∀ c ∈ cs.attach, (Octant.boxOf c.1).insideOf box ∧ Octant.wf c.1)
termination_by t => sizeOf t
decreasing_by
  simp_wf
  have h := List.sizeOf_lt_of_mem c.2
  omega

/-- Modelled from the spec: the drawable-collection phase of the ray
query (octree.cpp is missing): an octant is descended when the ray's
hit distance against its box is at most the maximum distance, and each
directly held occupant passing both masks is collected for its
detail-level hit test. `rayBoxDistance` stands for
`ray.HitDistance(box)`. -/
def Octant.raycastCollect (rayBoxDistance : BBox → ℚ) (maxDistance : ℚ)
    (types view : ℕ) : Octant → List Drawable
  | .node box ds cs =>
      if rayBoxDistance box ≤ maxDistance then
        ds.filter (maskOk types view) ++
          (cs.attach.map fun c =>
            Octant.raycastCollect rayBoxDistance maxDistance types view c.1).flatten
      else
        []
termination_by t => sizeOf t
decreasing_by
  simp_wf
  have h := List.sizeOf_lt_of_mem c.2
  omega

/-- State of a terrain patch relevant to bounds tracking: the local
bounding box `boundingBox_`, the cached `worldBoundingBox_`, the dirty
flag of the Drawable base, and the node's world transform of abstract
type `M` (matrix3x4.h is missing; the transform application enters as a
parameter). -/
structure TerrainPatchState (M : Type) where
  boundingBox : BBox
  worldBoundingBox : BBox
  worldBoundingBoxDirty : Bool
  worldTransform : M

/-- Embedding of `TerrainPatch::SetBoundingBox` (terrain_patch.cpp
lines 217-221): store the local box and mark dirty via
`OnMarkedDirty(node_)`; the Drawable base's reaction (setting the
world-bounds dirty flag) is modelled from the spec's lazy-recompute
contract since drawable.cpp is missing. -/
def TerrainPatch.SetBoundingBox {M : Type} (s : TerrainPatchState M)
    (box : BBox) : TerrainPatchState M :=
  { s with boundingBox := box, worldBoundingBoxDirty := true }

/-- Embedding of `TerrainPatch::OnWorldBoundingBoxUpdate`
(terrain_patch.cpp lines 258-261): the world box becomes the local box
transformed by the node's world transform; `transformed` stands for
`BoundingBox::Transformed`. -/
def TerrainPatch.OnWorldBoundingBoxUpdate {M : Type}
    (transformed : BBox → M → BBox) (s : TerrainPatchState M) : TerrainPatchState M :=
  { s with worldBoundingBox := transformed s.boundingBox s.worldTransform }

/-- Modelled from the spec: `Drawable::GetWorldBoundingBox` (drawable.h
is missing): when the dirty flag is set, recompute via the virtual
`OnWorldBoundingBoxUpdate` and clear the flag; otherwise return the
cache. -/
def Drawable.GetWorldBoundingBox {M : Type} (transformed : BBox → M → BBox)
    (s : TerrainPatchState M) : BBox × TerrainPatchState M :=
  if s.worldBoundingBoxDirty then
    let s2 := TerrainPatch.OnWorldBoundingBoxUpdate transformed s
    (s2.worldBoundingBox, { s2 with worldBoundingBoxDirty := false })
  else
    (s.worldBoundingBox, s)

section Theorems

theorem lengthSquared_nonneg (v : Vec3) : 0 ≤ v.LengthSquared := by
  have hx := mul_self_nonneg v.x
  have hy := mul_self_nonneg v.y
  have hz := mul_self_nonneg v.z
  unfold Vec3.LengthSquared
  linarith

theorem lengthSquared_smul (v : Vec3) (k : ℚ) :
    (v.smul k).LengthSquared = v.LengthSquared * (k * k) := by
  unfold Vec3.smul Vec3.LengthSquared
  ring

theorem normalize_eq (equalsOne : ℚ → Bool) (sqrtf : ℚ → ℚ) (v : Vec3) :
    Vec3.Normalize equalsOne sqrtf v =
      if ¬ equalsOne v.LengthSquared ∧ v.LengthSquared > 0 then
        ⟨v.x * (1 / sqrtf v.LengthSquared), v.y * (1 / sqrtf v.LengthSquared),
         v.z * (1 / sqrtf v.LengthSquared)⟩
      else v := rfl

theorem normalized_eq (equalsOne : ℚ → Bool) (sqrtf : ℚ → ℚ) (v : Vec3) :
    Vec3.normalized equalsOne sqrtf v =
      if ¬ equalsOne v.LengthSquared ∧ v.LengthSquared > 0 then
        v.smul (1 / sqrtf v.LengthSquared)
      else v := rfl

theorem obbTriangleCase_eq (query : RayOctreeQuery)
    (d g : ℚ) (gn : Vec3) (dr nd : ℕ) (res : List RayQueryResult) :
    TerrainPatch.obbTriangleCase query d g gn dr nd res =
      (if (if query.level = .RAY_TRIANGLE ∧ d < query.maxDistance then g else d) <
          query.maxDistance then
        res ++ [⟨query.ray.origin.add (query.ray.direction.smul
                   (if query.level = .RAY_TRIANGLE ∧ d < query.maxDistance then g else d)),
                 (if query.level = .RAY_TRIANGLE ∧ d < query.maxDistance then gn
                  else Vec3.neg query.ray.direction),
                 (if query.level = .RAY_TRIANGLE ∧ d < query.maxDistance then g else d),
                 dr, nd, NINDEX⟩]
      else res) := rfl

theorem mem_obbTriangleCase (query : RayOctreeQuery) (d g : ℚ) (gn : Vec3)
    (dr nd : ℕ) (res : List RayQueryResult) (r : RayQueryResult)
    (hr : r ∈ TerrainPatch.obbTriangleCase query d g gn dr nd res) :
    r ∈ res ∨ r.distance < query.maxDistance := by
  rw [obbTriangleCase_eq] at hr
  by_cases hlt : (if query.level = .RAY_TRIANGLE ∧ d < query.maxDistance then g else d) <
      query.maxDistance
  · rw [if_pos hlt] at hr
    rcases List.mem_append.mp hr with hin | hnew
    · exact Or.inl hin
    · right
      rw [List.mem_singleton.mp hnew]
      exact hlt
  · rw [if_neg hlt] at hr
    exact Or.inl hr

theorem insideOf_trans (a b c : BBox) (h1 : a.insideOf b) (h2 : b.insideOf c) :
    a.insideOf c := by
  obtain ⟨a1, a2, a3, a4, a5, a6⟩ := h1
  obtain ⟨b1, b2, b3, b4, b5, b6⟩ := h2
  exact ⟨by linarith, by linarith, by linarith, by linarith, by linarith, by linarith⟩

theorem axisGap_nonneg (lo hi p : ℚ) : 0 ≤ axisGap lo hi p := by
  unfold axisGap
  split_ifs <;> linarith

theorem axisGap_mono (lo hi lo2 hi2 p : ℚ) (hb : lo ≤ hi) (h1 : lo2 ≤ lo) (h2 : hi ≤ hi2) :
    axisGap lo2 hi2 p ≤ axisGap lo hi p := by
  unfold axisGap
  split_ifs <;> linarith

theorem distSqToPoint_mono (b c : BBox) (p : Vec3) (hdef : b.IsDefined)
    (hsub : b.insideOf c) : c.distSqToPoint p ≤ b.distSqToPoint p := by
  obtain ⟨d1, d2, d3⟩ := hdef
  obtain ⟨s1, s2, s3, s4, s5, s6⟩ := hsub
  unfold BBox.distSqToPoint
  have hx := axisGap_mono b.min.x b.max.x c.min.x c.max.x p.x d1 s1 s4
  have hy := axisGap_mono b.min.y b.max.y c.min.y c.max.y p.y d2 s2 s5
  have hz := axisGap_mono b.min.z b.max.z c.min.z c.max.z p.z d3 s3 s6
  have nx := axisGap_nonneg c.min.x c.max.x p.x
  have ny := axisGap_nonneg c.min.y c.max.y p.y
  have nz := axisGap_nonneg c.min.z c.max.z p.z
  have qx := mul_self_le_mul_self nx hx
  have qy := mul_self_le_mul_self ny hy
  have qz := mul_self_le_mul_self nz hz
  linarith

theorem maxCornerDist_mono (pl : Plane) (b c : BBox) (hsub : b.insideOf c) :
    pl.maxCornerDist b ≤ pl.maxCornerDist c := by
  obtain ⟨s1, s2, s3, s4, s5, s6⟩ := hsub
  unfold Plane.maxCornerDist
  have hx : (if 0 ≤ pl.normal.x then pl.normal.x * b.max.x else pl.normal.x * b.min.x) ≤
      (if 0 ≤ pl.normal.x then pl.normal.x * c.max.x else pl.normal.x * c.min.x) := by
    split_ifs with h
    · exact mul_le_mul_of_nonneg_left s4 h
    · exact mul_le_mul_of_nonpos_left s1 (le_of_not_le h)
  have hy : (if 0 ≤ pl.normal.y then pl.normal.y * b.max.y else pl.normal.y * b.min.y) ≤
      (if 0 ≤ pl.normal.y then pl.normal.y * c.max.y else pl.normal.y * c.min.y) := by
    split_ifs with h
    · exact mul_le_mul_of_nonneg_left s5 h
    · exact mul_le_mul_of_nonpos_left s2 (le_of_not_le h)
  have hz : (if 0 ≤ pl.normal.z then pl.normal.z * b.max.z else pl.normal.z * b.min.z) ≤
      (if 0 ≤ pl.normal.z then pl.normal.z * c.max.z else pl.normal.z * c.min.z) := by
    split_ifs with h
    · exact mul_le_mul_of_nonneg_left s6 h
    · exact mul_le_mul_of_nonpos_left s3 (le_of_not_le h)
  linarith

theorem geomTest_false_of_outside (k : OctreeQueryKind) (cb bb : BBox)
    (hout : k.testOctant cb = .OUTSIDE) (hdef : bb.IsDefined) (hsub : bb.insideOf cb) :
    ¬ k.geomTest bb := by
  cases k with
  | point p =>
      simp only [OctreeQueryKind.testOctant] at hout
      split at hout
      · exact absurd hout (by decide)
      · next hnc =>
          intro hg
          apply hnc
          simp only [OctreeQueryKind.geomTest] at hg
          obtain ⟨g1, g2, g3, g4, g5, g6⟩ := hg
          obtain ⟨s1, s2, s3, s4, s5, s6⟩ := hsub
          exact ⟨by linarith, by linarith, by linarith, by linarith, by linarith, by linarith⟩
  | sphere s =>
      simp only [OctreeQueryKind.testOctant] at hout
      unfold Sphere.classifyBox at hout
      split at hout
      · next h =>
          intro hg
          simp only [OctreeQueryKind.geomTest] at hg
          unfold Sphere.intersectsBox at hg
          have hm := distSqToPoint_mono bb cb s.center hdef hsub
          linarith
      · split at hout <;> exact absurd hout (by decide)
  | box qb =>
      simp only [OctreeQueryKind.testOctant] at hout
      unfold BBox.classify at hout
      split at hout
      · next h =>
          intro hg
          simp only [OctreeQueryKind.geomTest] at hg
          unfold BBox.intersects at hg
          apply hg
          obtain ⟨s1, s2, s3, s4, s5, s6⟩ := hsub
          rcases h with h | h | h | h | h | h
          · exact Or.inl (by linarith)
          · exact Or.inr (Or.inl (by linarith))
          · exact Or.inr (Or.inr (Or.inl (by linarith)))
          · exact Or.inr (Or.inr (Or.inr (Or.inl (by linarith))))
          · exact Or.inr (Or.inr (Or.inr (Or.inr (Or.inl (by linarith)))))
          · exact Or.inr (Or.inr (Or.inr (Or.inr (Or.inr (by linarith)))))
      · split at hout <;> exact absurd hout (by decide)
  | frustum f =>
      simp only [OctreeQueryKind.testOctant] at hout
      unfold Frustum.classifyBox at hout
      split at hout
      · next h =>
          intro hg
          simp only [OctreeQueryKind.geomTest] at hg
          unfold Frustum.intersectsBox at hg
          obtain ⟨pl, hmem, hneg⟩ := h
          have h1 := hg pl hmem
          have h2 := maxCornerDist_mono pl bb cb hsub
          linarith
      · split at hout <;> exact absurd hout (by decide)
  | allContent =>
      simp only [OctreeQueryKind.testOctant] at hout
      exact absurd hout (by decide)

theorem flatten_node (bx : BBox) (ds : List Drawable) (cs : List Octant) :
    Octant.flatten (.node bx ds cs) = ds ++ (cs.map Octant.flatten).flatten := by
  rw [Octant.flatten, List.attach_map_val]

theorem getDrawables_true_node (q : OctreeQuery) (bx : BBox) (ds : List Drawable)
    (cs : List Octant) :
    Octant.getDrawables q true (.node bx ds cs) =
      q.testDrawables ds ++ (cs.map (Octant.getDrawables q true)).flatten := by
  rw [Octant.getDrawables, List.attach_map_val]

theorem getDrawables_false_node (q : OctreeQuery) (bx : BBox) (ds : List Drawable)
    (cs : List Octant) :
    Octant.getDrawables q false (.node bx ds cs) =
      match q.kind.testOctant bx with
      | .OUTSIDE => []
      | .INSIDE => q.testDrawables ds ++ (cs.map (Octant.getDrawables q true)).flatten
      | .INTERSECTS => q.testDrawables ds ++ (cs.map (Octant.getDrawables q false)).flatten := by
  rcases hoct : q.kind.testOctant bx with _ | _ | _ <;>
    simp [Octant.getDrawables, hoct, List.attach_map_val]

theorem raycastCollect_node (bd : BBox → ℚ) (m : ℚ) (types view : ℕ)
    (bx : BBox) (ds : List Drawable) (cs : List Octant) :
    Octant.raycastCollect bd m types view (.node bx ds cs) =
      if bd bx ≤ m then
        ds.filter (maskOk types view) ++
          (cs.map (Octant.raycastCollect bd m types view)).flatten
      else [] := by
  rw [Octant.raycastCollect, List.attach_map_val]

theorem wf_node (bx : BBox) (ds : List Drawable) (cs : List Octant) :
    Octant.wf (.node bx ds cs) ↔
      ((∀ d ∈ ds, d.worldBoundingBox.IsDefined ∧ d.worldBoundingBox.insideOf bx) ∧
       (∀ c ∈ cs, (Octant.boxOf c).insideOf bx ∧ Octant.wf c)) := by
  rw [Octant.wf]
  constructor
  · rintro ⟨h1, h2⟩
    exact ⟨h1, fun c hc => h2 ⟨c, hc⟩ (List.mem_attach _ _)⟩
  · rintro ⟨h1, h2⟩
    exact ⟨h1, fun c _ => h2 c.1 c.2⟩

theorem sizeOf_node (bx : BBox) (ds : List Drawable) (cs : List Octant) :
    sizeOf (Octant.node bx ds cs) = 1 + sizeOf bx + sizeOf ds + sizeOf cs := by
  simp [Octant.node.sizeOf_spec]

theorem testDrawables_append (q : OctreeQuery) (l1 l2 : List Drawable) :
    q.testDrawables (l1 ++ l2) = q.testDrawables l1 ++ q.testDrawables l2 := by
  unfold OctreeQuery.testDrawables
  exact List.filter_append ..

theorem testDrawables_flatten (q : OctreeQuery) (ls : List (List Drawable)) :
    q.testDrawables ls.flatten = (ls.map q.testDrawables).flatten := by
  induction ls with
  | nil => rfl
  | cons hd tl ih =>
      rw [List.flatten_cons, testDrawables_append, ih, List.map_cons, List.flatten_cons]

theorem flatten_wf_boxes : ∀ n : ℕ, ∀ t : Octant, sizeOf t ≤ n → t.wf →
    ∀ d ∈ t.flatten, d.worldBoundingBox.IsDefined ∧ d.worldBoundingBox.insideOf t.boxOf := by
  intro n
  induction n with
  | zero =>
      intro t hs
      exfalso
      obtain ⟨bx, ds, cs⟩ := t
      rw [sizeOf_node] at hs
      omega
  | succ n ih =>
      intro t hs hwf d hd
      obtain ⟨bx, ds, cs⟩ := t
      rw [wf_node] at hwf
      rw [flatten_node] at hd
      rcases List.mem_append.mp hd with hin | hrec
      · exact hwf.1 d hin
      · obtain ⟨l, hl, hdl⟩ := List.mem_flatten.mp hrec
        obtain ⟨c, hc, rfl⟩ := List.mem_map.mp hl
        have hcs : sizeOf c ≤ n := by
          have h1 := List.sizeOf_lt_of_mem hc
          rw [sizeOf_node] at hs
          omega
        have hrec2 := ih c hcs (hwf.2 c hc).2 d hdl
        exact ⟨hrec2.1, insideOf_trans _ _ _ hrec2.2 (hwf.2 c hc).1⟩

theorem getDrawables_eq_testDrawables (q : OctreeQuery) :
    ∀ n : ℕ, ∀ t : Octant, sizeOf t ≤ n → t.wf →
      Octant.getDrawables q true t = q.testDrawables t.flatten ∧
      Octant.getDrawables q false t = q.testDrawables t.flatten := by
  intro n
  induction n with
  | zero =>
      intro t hs
      exfalso
      obtain ⟨bx, ds, cs⟩ := t
      rw [sizeOf_node] at hs
      omega
  | succ n ih =>
      intro t hs hwf
      obtain ⟨bx, ds, cs⟩ := t
      have hwf0 := hwf
      rw [wf_node] at hwf
      have hchild : ∀ c ∈ cs, sizeOf c ≤ n := by
        intro c hc
        have h1 := List.sizeOf_lt_of_mem hc
        rw [sizeOf_node] at hs
        omega
      have hbody :
          q.testDrawables ds ++ (cs.map (Octant.getDrawables q true)).flatten =
            q.testDrawables (Octant.flatten (.node bx ds cs)) := by
        rw [flatten_node, testDrawables_append, testDrawables_flatten, List.map_map]
        exact congrArg _ (congrArg _ (List.map_congr_left fun c hc =>
          (ih c (hchild c hc) (hwf.2 c hc).2).1))
      have htrue : Octant.getDrawables q true (.node bx ds cs) =
          q.testDrawables (Octant.flatten (.node bx ds cs)) := by
        rw [getDrawables_true_node]
        exact hbody
      refine ⟨htrue, ?_⟩
      rw [getDrawables_false_node]
      rcases hoct : q.kind.testOctant bx with _ | _ | _
      · -- OUTSIDE: the whole subtree is pruned and indeed holds no
        -- occupant passing the geometric test
        show ([] : List Drawable) = q.testDrawables (Octant.flatten (.node bx ds cs))
        unfold OctreeQuery.testDrawables
        refine Eq.symm (List.filter_eq_nil_iff.mpr ?_)
        intro d hd
        have hbox := flatten_wf_boxes (sizeOf (Octant.node bx ds cs)) _ le_rfl hwf0 d hd
        have hng := geomTest_false_of_outside q.kind bx d.worldBoundingBox hoct hbox.1 hbox.2
        simp only [Bool.and_eq_true, decide_eq_true_eq]
        rintro ⟨-, hp⟩
        exact hng hp
      · -- INTERSECTS: recurse with the flag still false
        show q.testDrawables ds ++ (cs.map (Octant.getDrawables q false)).flatten =
          q.testDrawables (Octant.flatten (.node bx ds cs))
        rw [flatten_node, testDrawables_append, testDrawables_flatten, List.map_map]
        exact congrArg _ (congrArg _ (List.map_congr_left fun c hc =>
          (ih c (hchild c hc) (hwf.2 c hc).2).2))
      · -- INSIDE: descendants skip their box tests
        show q.testDrawables ds ++ (cs.map (Octant.getDrawables q true)).flatten =
          q.testDrawables (Octant.flatten (.node bx ds cs))
        exact hbody

theorem mem_getDrawables_mask (q : OctreeQuery) :
    ∀ n : ℕ, ∀ t : Octant, sizeOf t ≤ n → ∀ inside : Bool,
      ∀ d ∈ Octant.getDrawables q inside t,
        maskOk q.drawableTypes q.viewMask d = true := by
  intro n
  induction n with
  | zero =>
      intro t hs
      exfalso
      obtain ⟨bx, ds, cs⟩ := t
      rw [sizeOf_node] at hs
      omega
  | succ n ih =>
      intro t hs inside d hd
      obtain ⟨bx, ds, cs⟩ := t
      have hchild : ∀ c ∈ cs, sizeOf c ≤ n := by
        intro c hc
        have h1 := List.sizeOf_lt_of_mem hc
        rw [sizeOf_node] at hs
        omega
      have hfilter : ∀ ds2 : List Drawable, d ∈ q.testDrawables ds2 →
          maskOk q.drawableTypes q.viewMask d = true := by
        intro ds2 hin
        unfold OctreeQuery.testDrawables at hin
        have h2 := (List.mem_filter.mp hin).2
        simp only [Bool.and_eq_true] at h2
        exact h2.1
      have hstep : ∀ fl : Bool,
          d ∈ q.testDrawables ds ++ (cs.map (Octant.getDrawables q fl)).flatten →
            maskOk q.drawableTypes q.viewMask d = true := by
        intro fl hmem
        rcases List.mem_append.mp hmem with hin | hrec
        · exact hfilter ds hin
        · obtain ⟨l, hl, hdl⟩ := List.mem_flatten.mp hrec
          obtain ⟨c, hc, rfl⟩ := List.mem_map.mp hl
          exact ih c (hchild c hc) fl d hdl
      cases inside with
      | true =>
          rw [getDrawables_true_node] at hd
          exact hstep true hd
      | false =>
          rw [getDrawables_false_node] at hd
          rcases hoct : q.kind.testOctant bx with _ | _ | _ <;> rw [hoct] at hd
          · exact absurd hd (List.not_mem_nil d)
          · exact hstep false hd
          · exact hstep true hd

theorem mem_raycastCollect_mask (bd : BBox → ℚ) (m : ℚ) (types view : ℕ) :
    ∀ n : ℕ, ∀ t : Octant, sizeOf t ≤ n →
      ∀ d ∈ Octant.raycastCollect bd m types view t, maskOk types view d = true := by
  intro n
  induction n with
  | zero =>
      intro t hs
      exfalso
      obtain ⟨bx, ds, cs⟩ := t
      rw [sizeOf_node] at hs
      omega
  | succ n ih =>
      intro t hs d hd
      obtain ⟨bx, ds, cs⟩ := t
      rw [raycastCollect_node] at hd
      split at hd
      · rcases List.mem_append.mp hd with hin | hrec
        · exact (List.mem_filter.mp hin).2
        · obtain ⟨l, hl, hdl⟩ := List.mem_flatten.mp hrec
          obtain ⟨c, hc, rfl⟩ := List.mem_map.mp hl
          have hcs : sizeOf c ≤ n := by
            have h1 := List.sizeOf_lt_of_mem hc
            rw [sizeOf_node] at hs
            omega
          exact ih c hcs d hdl
      · exact absurd hd (List.not_mem_nil d)

/-- C1: for every spatial query kind (point, sphere, box, frustum, and
trivially all-content) against a well-formed octant tree whose
occupants all pass the query's masks, the recursive query returns
exactly the occupants whose defined world box passes the occupant-level
geometric test: the output equals the filter of the flattened occupant
list (hence every intersecting occupant appears and the set is a
deterministic function of the index state), and when the stored
occupants are distinct no occupant appears twice. -/
theorem claim_C1 (k : OctreeQueryKind) (types view : ℕ) (t : Octant)
    (hwf : t.wf)
    (hmask : ∀ d ∈ t.flatten, maskOk types view d = true)
    (hnd : t.flatten.Nodup) :
    Octant.getDrawables ⟨k, types, view⟩ false t =
      t.flatten.filter (fun d => decide (k.geomTest d.worldBoundingBox)) ∧
    (Octant.getDrawables ⟨k, types, view⟩ false t).Nodup := by
  have h := (getDrawables_eq_testDrawables ⟨k, types, view⟩ (sizeOf t) t le_rfl hwf).2
  have hfe : OctreeQuery.testDrawables ⟨k, types, view⟩ t.flatten =
      t.flatten.filter (fun d => decide (k.geomTest d.worldBoundingBox)) := by
    unfold OctreeQuery.testDrawables
    refine List.filter_congr ?_
    intro d hd
    show (maskOk types view d && decide (k.geomTest d.worldBoundingBox)) =
      decide (k.geomTest d.worldBoundingBox)
    rw [hmask d hd, Bool.true_and]
  rw [h, hfe]
  exact ⟨rfl, List.Nodup.filter _ hnd⟩

/-- C1 witness: a one-octant tree with two distinct occupants and a
concrete box query; all hypotheses are discharged on the concrete
data. -/
theorem claim_C1_witness :
    Octant.getDrawables ⟨.box ⟨⟨0, 0, 0⟩, ⟨3, 3, 3⟩⟩, 1, 1⟩ false
        (Octant.node ⟨⟨0, 0, 0⟩, ⟨10, 10, 10⟩⟩
          [⟨1, 1, 1, ⟨⟨1, 1, 1⟩, ⟨2, 2, 2⟩⟩⟩, ⟨2, 1, 1, ⟨⟨8, 8, 8⟩, ⟨9, 9, 9⟩⟩⟩] []) =
      (Octant.node ⟨⟨0, 0, 0⟩, ⟨10, 10, 10⟩⟩
          [⟨1, 1, 1, ⟨⟨1, 1, 1⟩, ⟨2, 2, 2⟩⟩⟩, ⟨2, 1, 1, ⟨⟨8, 8, 8⟩, ⟨9, 9, 9⟩⟩⟩] []).flatten.filter
        (fun d => decide ((OctreeQueryKind.box ⟨⟨0, 0, 0⟩, ⟨3, 3, 3⟩⟩).geomTest
          d.worldBoundingBox)) ∧
    (Octant.getDrawables ⟨.box ⟨⟨0, 0, 0⟩, ⟨3, 3, 3⟩⟩, 1, 1⟩ false
        (Octant.node ⟨⟨0, 0, 0⟩, ⟨10, 10, 10⟩⟩
          [⟨1, 1, 1, ⟨⟨1, 1, 1⟩, ⟨2, 2, 2⟩⟩⟩, ⟨2, 1, 1, ⟨⟨8, 8, 8⟩, ⟨9, 9, 9⟩⟩⟩] [])).Nodup :=
  claim_C1 (.box ⟨⟨0, 0, 0⟩, ⟨3, 3, 3⟩⟩) 1 1
    (Octant.node ⟨⟨0, 0, 0⟩, ⟨10, 10, 10⟩⟩
      [⟨1, 1, 1, ⟨⟨1, 1, 1⟩, ⟨2, 2, 2⟩⟩⟩, ⟨2, 1, 1, ⟨⟨8, 8, 8⟩, ⟨9, 9, 9⟩⟩⟩] [])
    (by
      rw [wf_node]
      constructor
      · intro d hd
        simp only [List.mem_cons, List.mem_singleton] at hd
        rcases hd with rfl | rfl | hd
        · exact ⟨by norm_num [BBox.IsDefined], by norm_num [BBox.insideOf]⟩
        · exact ⟨by norm_num [BBox.IsDefined], by norm_num [BBox.insideOf]⟩
        · exact absurd hd (List.not_mem_nil d)
      · intro c hc
        exact absurd hc (List.not_mem_nil c))
    (by
      intro d hd
      rw [flatten_node] at hd
      simp only [List.map_nil, List.flatten_nil, List.append_nil, List.mem_cons,
        List.mem_singleton] at hd
      rcases hd with rfl | rfl | hd
      · decide
      · decide
      · exact absurd hd (List.not_mem_nil d))
    (by
      rw [flatten_node]
      simp only [List.map_nil, List.flatten_nil, List.append_nil, List.nodup_cons,
        List.mem_singleton, List.not_mem_nil, not_false_iff, and_true, List.nodup_nil]
      intro h
      simp only [Drawable.mk.injEq] at h
      exact absurd h.1 (by norm_num))

/-- C5: the two filter masks are the constructor arguments of the query
object, and an occupant reached by any query traversal (the recursive
point/sphere/box/frustum/all-content collection, or the ray query's
per-octant occupant collection) necessarily has a nonzero bitwise AND
of its type tag with the query's type mask and of its layer mask with
the query's view mask; an occupant failing either mask never appears. -/
theorem claim_C5 :
    (∀ k : OctreeQueryKind, ∀ types view : ℕ,
      (OctreeQuery.mk k types view).drawableTypes = types ∧
      (OctreeQuery.mk k types view).viewMask = view) ∧
    (∀ q : OctreeQuery, ∀ inside : Bool, ∀ t : Octant, ∀ d : Drawable,
      d ∈ Octant.getDrawables q inside t →
        Nat.land d.drawableType q.drawableTypes ≠ 0 ∧
        Nat.land d.viewMask q.viewMask ≠ 0) ∧
    (∀ bd : BBox → ℚ, ∀ m : ℚ, ∀ types view : ℕ, ∀ t : Octant, ∀ d : Drawable,
      d ∈ Octant.raycastCollect bd m types view t →
        Nat.land d.drawableType types ≠ 0 ∧ Nat.land d.viewMask view ≠ 0) := by
  refine ⟨fun k types view => ⟨rfl, rfl⟩, ?_, ?_⟩
  · intro q inside t d hd
    have h := mem_getDrawables_mask q (sizeOf t) t le_rfl inside d hd
    unfold maskOk at h
    simp only [Bool.and_eq_true, bne_iff_ne, ne_eq] at h
    exact ⟨h.1, h.2⟩
  · intro bd m types view t d hd
    have h := mem_raycastCollect_mask bd m types view (sizeOf t) t le_rfl d hd
    unfold maskOk at h
    simp only [Bool.and_eq_true, bne_iff_ne, ne_eq] at h
    exact ⟨h.1, h.2⟩

/-- C5 witness: a concrete all-content query over a one-occupant octant
yields the mask facts for that occupant. -/
theorem claim_C5_witness :
    Nat.land 3 1 ≠ 0 ∧ Nat.land 5 4 ≠ 0 :=
  claim_C5.2.1 ⟨.allContent, 1, 4⟩ false
    (Octant.node ⟨⟨0, 0, 0⟩, ⟨0, 0, 0⟩⟩ [⟨0, 3, 5, ⟨⟨0, 0, 0⟩, ⟨0, 0, 0⟩⟩⟩] [])
    ⟨0, 3, 5, ⟨⟨0, 0, 0⟩, ⟨0, 0, 0⟩⟩⟩
    (by
      rw [getDrawables_false_node]
      decide)

/-- C7: setting a TerrainPatch's local bounding box marks the world
bounds dirty, and the next world-bounding-box fetch recomputes the
cache as exactly the local box transformed by the node's world
transform, clearing the dirty flag; this holds for every transform
implementation. -/
theorem claim_C7 {M : Type} (transformed : BBox → M → BBox)
    (s : TerrainPatchState M) (box : BBox) :
    (TerrainPatch.SetBoundingBox s box).worldBoundingBoxDirty = true ∧
    (Drawable.GetWorldBoundingBox transformed (TerrainPatch.SetBoundingBox s box)).1 =
      transformed box s.worldTransform ∧
    (Drawable.GetWorldBoundingBox transformed
        (TerrainPatch.SetBoundingBox s box)).2.worldBoundingBoxDirty = false := by
  refine ⟨rfl, ?_, ?_⟩ <;>
    simp [Drawable.GetWorldBoundingBox, TerrainPatch.SetBoundingBox,
      TerrainPatch.OnWorldBoundingBoxUpdate]

/-- C6: a zero-length Vector3 is left unchanged by Normalize and is
returned as itself by normalized, for every implementation of the
epsilon comparison and of the square root, since the positive-length
branch guard fails; no division is ever taken on this path. -/
theorem claim_C6 (equalsOne : ℚ → Bool) (sqrtf : ℚ → ℚ) (v : Vec3)
    (h : v.LengthSquared = 0) :
    Vec3.Normalize equalsOne sqrtf v = v ∧ Vec3.normalized equalsOne sqrtf v = v := by
  have hguard : ¬ (¬ equalsOne v.LengthSquared ∧ v.LengthSquared > 0) := by
    rintro ⟨-, hpos⟩
    rw [h] at hpos
    exact lt_irrefl 0 hpos
  constructor
  · rw [normalize_eq, if_neg hguard]
  · rw [normalized_eq, if_neg hguard]

/-- C6 witness: the zero vector at concrete comparison and sqrt
implementations. -/
theorem claim_C6_witness :
    Vec3.Normalize (fun s => decide (s = 1)) (fun _ => 0) ⟨0, 0, 0⟩ = ⟨0, 0, 0⟩ ∧
    Vec3.normalized (fun s => decide (s = 1)) (fun _ => 0) ⟨0, 0, 0⟩ = ⟨0, 0, 0⟩ :=
  claim_C6 (fun s => decide (s = 1)) (fun _ => 0) ⟨0, 0, 0⟩
    (by norm_num [Vec3.LengthSquared])

/-- C10: normalized is idempotent: when the squared length already
compares equal to one, or is zero, the vector is returned unchanged,
and a freshly normalized vector has exact squared length one, so the
second call takes the unchanged branch. The hypotheses say that the
comparison accepts one against itself and that the supplied square root
is exact at this vector's squared length. -/
theorem claim_C10 (equalsOne : ℚ → Bool) (sqrtf : ℚ → ℚ) (v : Vec3)
    (h1 : equalsOne 1 = true)
    (h2 : v.LengthSquared > 0 → equalsOne v.LengthSquared = false →
          sqrtf v.LengthSquared * sqrtf v.LengthSquared = v.LengthSquared) :
    Vec3.normalized equalsOne sqrtf (Vec3.normalized equalsOne sqrtf v) =
      Vec3.normalized equalsOne sqrtf v := by
  have key : ∀ u : Vec3, u.LengthSquared = 1 → Vec3.normalized equalsOne sqrtf u = u := by
    intro u hu
    rw [normalized_eq, if_neg]
    rintro ⟨hne, -⟩
    rw [hu] at hne
    exact hne h1
  by_cases hc : ¬ equalsOne v.LengthSquared ∧ v.LengthSquared > 0
  · have hsq := h2 hc.2 (by simpa using hc.1)
    have hpos : v.LengthSquared ≠ 0 := ne_of_gt hc.2
    have hs : sqrtf v.LengthSquared ≠ 0 := by
      intro h0
      rw [h0, mul_zero] at hsq
      exact hpos hsq.symm
    have hlen : (Vec3.normalized equalsOne sqrtf v).LengthSquared = 1 := by
      rw [normalized_eq, if_pos hc, lengthSquared_smul]
      field_simp
      rw [hsq]
    exact key _ hlen
  · have hv : Vec3.normalized equalsOne sqrtf v = v := by
      rw [normalized_eq, if_neg hc]
    rw [hv, hv]

/-- C10 witness: the vector (3,4,0) with the exact square root 5 at its
squared length 25. -/
theorem claim_C10_witness :
    Vec3.normalized (fun s => decide (s = 1)) (fun _ => 5)
        (Vec3.normalized (fun s => decide (s = 1)) (fun _ => 5) ⟨3, 4, 0⟩) =
      Vec3.normalized (fun s => decide (s = 1)) (fun _ => 5) ⟨3, 4, 0⟩ :=
  claim_C10 (fun s => decide (s = 1)) (fun _ => 5) ⟨3, 4, 0⟩ (by simp)
    (fun _ _ => by norm_num [Vec3.LengthSquared])

/-- C2 counterexample: a TerrainPatch queried at RAY_TRIANGLE_UV with a
ray that hits (all candidate distances 1, maximum distance 10) appends
no hit record at all, while the same configuration at the cheaper
RAY_TRIANGLE level does append one: the occupant is silently dropped at
the unsupported level rather than degraded to a cheaper level. -/
theorem claim_C2_counterexample :
    TerrainPatch.ProcessRayQuery
        ⟨⟨⟨0, 0, 0⟩, ⟨0, 0, 1⟩⟩, 1, 1, 10, .RAY_TRIANGLE_UV⟩ 1 1 ⟨0, 0, -1⟩ 1 7 8 [] = [] ∧
    TerrainPatch.ProcessRayQuery
        ⟨⟨⟨0, 0, 0⟩, ⟨0, 0, 1⟩⟩, 1, 1, 10, .RAY_TRIANGLE⟩ 1 1 ⟨0, 0, -1⟩ 1 7 8 [] ≠ [] := by
  constructor
  · rfl
  · norm_num [TerrainPatch.ProcessRayQuery, TerrainPatch.obbTriangleCase]

/-- C2 (amended): an unsupported ray detail level is never an error,
but a TerrainPatch queried at RAY_TRIANGLE_UV does not degrade to a
cheaper level: it only logs a warning and leaves the result vector
unchanged, dropping the occupant from the results. -/
theorem claim_C2 (query : RayOctreeQuery) (d g : ℚ) (gn : Vec3) (wd : ℚ)
    (dr nd : ℕ) (res : List RayQueryResult)
    (hlev : query.level = .RAY_TRIANGLE_UV) :
    TerrainPatch.ProcessRayQuery query d g gn wd dr nd res = res := by
  unfold TerrainPatch.ProcessRayQuery
  rw [hlev]

/-- C2 witness: concrete RAY_TRIANGLE_UV query leaves the result vector
unchanged. -/
theorem claim_C2_witness :
    TerrainPatch.ProcessRayQuery
        ⟨⟨⟨0, 0, 0⟩, ⟨0, 0, 1⟩⟩, 1, 1, 10, .RAY_TRIANGLE_UV⟩ 2 2 ⟨0, 0, -1⟩ 2 7 8 [] = [] :=
  claim_C2 ⟨⟨⟨0, 0, 0⟩, ⟨0, 0, 1⟩⟩, 1, 1, 10, .RAY_TRIANGLE_UV⟩ 2 2 ⟨0, 0, -1⟩ 2 7 8 [] rfl

/-- C3 counterexample: a ray-vs-box hit at distance exactly equal to
the maximum distance (both 5) is NOT recorded by
TerrainPatch::ProcessRayQuery at RAY_OBB, contradicting the claim that
a hit with distance equal to the maximum is included. -/
theorem claim_C3_counterexample :
    (5 : ℚ) ≤ 5 ∧
    TerrainPatch.ProcessRayQuery
        ⟨⟨⟨0, 0, 0⟩, ⟨0, 0, 1⟩⟩, 1, 1, 5, .RAY_OBB⟩ 5 5 ⟨0, 0, -1⟩ 5 7 8 [] = [] := by
  constructor
  · exact le_refl 5
  · norm_num [TerrainPatch.ProcessRayQuery, TerrainPatch.obbTriangleCase]

/-- C3 (amended): a hit is recorded if and only if its distance is
strictly less than the maximum distance; a hit whose distance equals
the maximum exactly is excluded. First conjunct: the exact RAY_OBB
behavior as an equation on the result vector. Second conjunct: at every
level, any record in the output is either carried over or has distance
strictly below the maximum. -/
theorem claim_C3 (query : RayOctreeQuery) (d g : ℚ) (gn : Vec3) (wd : ℚ)
    (dr nd : ℕ) (res : List RayQueryResult)
    (hlev : query.level = .RAY_OBB) :
    (TerrainPatch.ProcessRayQuery query d g gn wd dr nd res =
      if d < query.maxDistance then
        res ++ [⟨query.ray.origin.add (query.ray.direction.smul d),
                 Vec3.neg query.ray.direction, d, dr, nd, NINDEX⟩]
      else res) ∧
    (∀ q2 : RayOctreeQuery, ∀ d2 g2 : ℚ, ∀ gn2 : Vec3, ∀ wd2 : ℚ, ∀ dr2 nd2 : ℕ,
      ∀ res2 : List RayQueryResult, ∀ r : RayQueryResult,
        r ∈ TerrainPatch.ProcessRayQuery q2 d2 g2 gn2 wd2 dr2 nd2 res2 →
          r ∈ res2 ∨ r.distance < q2.maxDistance) := by
  constructor
  · have hcond : ¬ (query.level = .RAY_TRIANGLE ∧ d < query.maxDistance) := by
      rintro ⟨h, -⟩
      rw [hlev] at h
      exact absurd h (by simp)
    have hred : TerrainPatch.ProcessRayQuery query d g gn wd dr nd res =
        TerrainPatch.obbTriangleCase query d g gn dr nd res := by
      unfold TerrainPatch.ProcessRayQuery
      rw [hlev]
    rw [hred, obbTriangleCase_eq, if_neg hcond, if_neg hcond]
  · intro q2 d2 g2 gn2 wd2 dr2 nd2 res2 r hr
    unfold TerrainPatch.ProcessRayQuery at hr
    split at hr
    · unfold Drawable.ProcessRayQuery at hr
      by_cases hlt : wd2 < q2.maxDistance
      · rw [if_pos hlt] at hr
        rcases List.mem_append.mp hr with hin | hnew
        · exact Or.inl hin
        · right
          rw [List.mem_singleton.mp hnew]
          exact hlt
      · rw [if_neg hlt] at hr
        exact Or.inl hr
    · exact mem_obbTriangleCase q2 d2 g2 gn2 dr2 nd2 res2 r hr
    · exact mem_obbTriangleCase q2 d2 g2 gn2 dr2 nd2 res2 r hr
    · exact Or.inl hr

/-- C3 witness: at RAY_OBB with box distance 3 and maximum 5 the record
is appended; the general distance bound is instantiated on the output. -/
theorem claim_C3_witness :
    TerrainPatch.ProcessRayQuery
        ⟨⟨⟨0, 0, 0⟩, ⟨0, 0, 1⟩⟩, 1, 1, 5, .RAY_OBB⟩ 3 3 ⟨0, 0, -1⟩ 3 7 8 [] =
      (if (3 : ℚ) < 5 then
        [⟨Vec3.add ⟨0, 0, 0⟩ (Vec3.smul ⟨0, 0, 1⟩ 3), Vec3.neg ⟨0, 0, 1⟩, 3, 7, 8, NINDEX⟩]
      else []) :=
  (claim_C3 ⟨⟨⟨0, 0, 0⟩, ⟨0, 0, 1⟩⟩, 1, 1, 5, .RAY_OBB⟩ 3 3 ⟨0, 0, -1⟩ 3 7 8 [] rfl).1

/-- C4: every terrain-patch ray processing call appends at most one hit
record, leaves all previously appended records unchanged at the front
of the vector, and each appended record carries the drawable and node
identifiers with its position equal to ray origin plus distance times
ray direction. -/
theorem claim_C4 (query : RayOctreeQuery) (d g : ℚ) (gn : Vec3) (wd : ℚ)
    (dr nd : ℕ) (res : List RayQueryResult) :
    ∃ tail : List RayQueryResult,
      TerrainPatch.ProcessRayQuery query d g gn wd dr nd res = res ++ tail ∧
      tail.length ≤ 1 ∧
      ∀ r ∈ tail,
        r.position = query.ray.origin.add (query.ray.direction.smul r.distance) ∧
        r.drawable = dr ∧ r.node = nd ∧ r.distance < query.maxDistance := by
  have hobb :
      ∃ tail : List RayQueryResult,
        TerrainPatch.obbTriangleCase query d g gn dr nd res = res ++ tail ∧
        tail.length ≤ 1 ∧
        ∀ r ∈ tail,
          r.position = query.ray.origin.add (query.ray.direction.smul r.distance) ∧
          r.drawable = dr ∧ r.node = nd ∧ r.distance < query.maxDistance := by
    rw [obbTriangleCase_eq]
    by_cases hlt : (if query.level = .RAY_TRIANGLE ∧ d < query.maxDistance then g else d) <
        query.maxDistance
    · rw [if_pos hlt]
      refine ⟨_, rfl, by simp, ?_⟩
      intro r hr
      rw [List.mem_singleton.mp hr]
      exact ⟨rfl, rfl, rfl, hlt⟩
    · rw [if_neg hlt]
      exact ⟨[], by simp, by simp, by simp⟩
  unfold TerrainPatch.ProcessRayQuery
  split
  · unfold Drawable.ProcessRayQuery
    by_cases hlt : wd < query.maxDistance
    · rw [if_pos hlt]
      refine ⟨_, rfl, by simp, ?_⟩
      intro r hr
      rw [List.mem_singleton.mp hr]
      exact ⟨rfl, rfl, rfl, hlt⟩
    · rw [if_neg hlt]
      exact ⟨[], by simp, by simp, by simp⟩
  · exact hobb
  · exact hobb
  · exact ⟨[], by simp, by simp, by simp⟩

/-- C8: at RAY_TRIANGLE, when the coarse local-box hit distance is not
strictly below the maximum distance, the output is independent of the
per-triangle geometry results (the expensive test is never consulted)
and no record is appended. -/
theorem claim_C8 (query : RayOctreeQuery) (d wd : ℚ) (dr nd : ℕ)
    (res : List RayQueryResult)
    (hlev : query.level = .RAY_TRIANGLE)
    (hmiss : ¬ d < query.maxDistance) :
    ∀ g : ℚ, ∀ gn : Vec3,
      TerrainPatch.ProcessRayQuery query d g gn wd dr nd res = res := by
  intro g gn
  have hcond : ¬ (query.level = .RAY_TRIANGLE ∧ d < query.maxDistance) := by
    rintro ⟨-, h⟩
    exact hmiss h
  have hred : TerrainPatch.ProcessRayQuery query d g gn wd dr nd res =
      TerrainPatch.obbTriangleCase query d g gn dr nd res := by
    unfold TerrainPatch.ProcessRayQuery
    rw [hlev]
  rw [hred, obbTriangleCase_eq, if_neg hcond, if_neg hcond, if_neg hmiss]

/-- C8 witness: box distance 7 against maximum 5 with two different
geometry answers, both leaving the results empty. -/
theorem claim_C8_witness :
    TerrainPatch.ProcessRayQuery
        ⟨⟨⟨0, 0, 0⟩, ⟨0, 0, 1⟩⟩, 1, 1, 5, .RAY_TRIANGLE⟩ 7 2 ⟨9, 9, 9⟩ 0 1 2 [] = [] ∧
    TerrainPatch.ProcessRayQuery
        ⟨⟨⟨0, 0, 0⟩, ⟨0, 0, 1⟩⟩, 1, 1, 5, .RAY_TRIANGLE⟩ 7 3 ⟨8, 8, 8⟩ 0 1 2 [] = [] :=
  ⟨claim_C8 ⟨⟨⟨0, 0, 0⟩, ⟨0, 0, 1⟩⟩, 1, 1, 5, .RAY_TRIANGLE⟩ 7 0 1 2 [] rfl
      (by norm_num) 2 ⟨9, 9, 9⟩,
   claim_C8 ⟨⟨⟨0, 0, 0⟩, ⟨0, 0, 1⟩⟩, 1, 1, 5, .RAY_TRIANGLE⟩ 7 0 1 2 [] rfl
      (by norm_num) 3 ⟨8, 8, 8⟩⟩

/-- C9: at RAY_OBB a recorded hit's normal is exactly the negated ray
direction, since the per-triangle refinement only runs at RAY_TRIANGLE. -/
theorem claim_C9 (query : RayOctreeQuery) (d g : ℚ) (gn : Vec3) (wd : ℚ)
    (dr nd : ℕ) (res : List RayQueryResult)
    (hlev : query.level = .RAY_OBB)
    (hhit : d < query.maxDistance) :
    TerrainPatch.ProcessRayQuery query d g gn wd dr nd res =
      res ++ [⟨query.ray.origin.add (query.ray.direction.smul d),
               Vec3.neg query.ray.direction, d, dr, nd, NINDEX⟩] := by
  have hcond : ¬ (query.level = .RAY_TRIANGLE ∧ d < query.maxDistance) := by
    rintro ⟨h, -⟩
    rw [hlev] at h
    exact absurd h (by simp)
  have hred : TerrainPatch.ProcessRayQuery query d g gn wd dr nd res =
      TerrainPatch.obbTriangleCase query d g gn dr nd res := by
    unfold TerrainPatch.ProcessRayQuery
    rw [hlev]
  rw [hred, obbTriangleCase_eq, if_neg hcond, if_neg hcond, if_pos hhit]

/-- C9 witness: a concrete RAY_OBB hit whose recorded normal is the
negated ray direction. -/
theorem claim_C9_witness :
    TerrainPatch.ProcessRayQuery
        ⟨⟨⟨0, 0, 0⟩, ⟨0, 0, 1⟩⟩, 1, 1, 5, .RAY_OBB⟩ 3 9 ⟨4, 4, 4⟩ 3 7 8 [] =
      [⟨Vec3.add ⟨0, 0, 0⟩ (Vec3.smul ⟨0, 0, 1⟩ 3), Vec3.neg ⟨0, 0, 1⟩, 3, 7, 8, NINDEX⟩] :=
  claim_C9 ⟨⟨⟨0, 0, 0⟩, ⟨0, 0, 1⟩⟩, 1, 1, 5, .RAY_OBB⟩ 3 9 ⟨4, 4, 4⟩ 3 7 8 [] rfl
    (by norm_num)

end Theorems

end Dviglo
